import Mathlib

/-!
Shallow embedding of the EESSI filesystem-layer automated-ingestion scripts
(`scripts/automated_ingestion/`), covering the parts of the code that the
specification's claims are about: task states and their resolution order,
task-action determination from metadata, the ingestion handlers, exit codes,
bucket listing, the git-backed metadata-file move, the data/signature
download logic, checksum verification, and metadata-filename parsing.

Python strings are modelled as `List Char`, optional values as `Option`,
and raised exceptions as `Except` errors.  Each definition mirrors one
function (or a coherent fragment of one function) of the source.
-/

namespace EESSI

/-- Characters of a Lean string literal, used to write Python string values. -/
def chars (s : String) : List Char := s.data

/-! ## Task states (`eessi_task.py`, class `TaskState`)

`TaskState` is a `total_ordering` enum whose members are declared with
`auto()`, so `UNDETERMINED = 1`, ..., `DONE = 8`, and `__lt__` compares the
numeric values. -/

/-- The `TaskState` enum of `eessi_task.py` (declaration order = `auto()` order). -/
inductive TaskState where
  | UNDETERMINED
  | NEW_TASK
  | PAYLOAD_STAGED
  | PULL_REQUEST
  | APPROVED
  | REJECTED
  | INGESTED
  | DONE
deriving DecidableEq, Repr, Fintype

/-- Numeric value assigned by `auto()` to each `TaskState` member. -/
def TaskState.value : TaskState → Nat
  | .UNDETERMINED => 1
  | .NEW_TASK => 2
  | .PAYLOAD_STAGED => 3
  | .PULL_REQUEST => 4
  | .APPROVED => 5
  | .REJECTED => 6
  | .INGESTED => 7
  | .DONE => 8

/-- Python `TaskState.__lt__`: comparison of the `auto()` values. -/
def TaskState.lt (a b : TaskState) : Bool := a.value < b.value

/-- One step of Python's stable ascending sort on `TaskState` lists: insert
`a` in front of the first element it does not exceed. -/
def insertSorted (a : TaskState) : List TaskState → List TaskState
  | [] => [a]
  | b :: bs => if TaskState.lt b a then b :: insertSorted a bs else a :: b :: bs

/-- `states.sort()` of `eessi_task.py`: stable ascending sort by `__lt__`. -/
def pySortStates (l : List TaskState) : List TaskState := l.foldr insertSorted []

/-- The state-file lookup results used by
`EESSITask._get_state_for_metadata_file_prefix`: for each of the default
branch and the sequence-number ("feature") branch, the state parsed from the
task's state file in that branch, or `none` when the branch does not exist or
holds no file with the metadata-file prefix.  The loop `for branch in
[default_branch_name, branch_name]` appends the default branch's find first. -/
def collectBranchStates (defaultBranchState featureBranchState : Option TaskState) :
    List TaskState :=
  defaultBranchState.toList ++ featureBranchState.toList

/-- `EESSITask._get_state_for_metadata_file_prefix` (`eessi_task.py`, lines
393-414), as a function of the states found per branch: an empty find returns
`NEW_TASK`, otherwise the found states are sorted ascending (`states.sort()`)
and the last one (`states[-1]`) is returned. -/
def get_state_for_metadata_files (defaultBranchState featureBranchState : Option TaskState) :
    TaskState :=
  let states := collectBranchStates defaultBranchState featureBranchState
  match states with
  | [] => TaskState.NEW_TASK
  | _ => (pySortStates states).getLastD TaskState.NEW_TASK

/-- The maximum of two states under the `TaskState` order
`UNDETERMINED < NEW_TASK < PAYLOAD_STAGED < PULL_REQUEST < APPROVED <
REJECTED < INGESTED < DONE`. -/
def TaskState.max (a b : TaskState) : TaskState := if TaskState.lt a b then b else a

/-! ## Task actions (`eessi_task_action.py` and
`EESSITask._determine_task_action` in `eessi_task.py`) -/

/-- The `EESSITaskAction` enum of `eessi_task_action.py`. -/
inductive EESSITaskAction where
  | NOP
  | DELETE
  | ADD
  | UPDATE
  | UNKNOWN
deriving DecidableEq, Repr

/-- The `task` element of a parsed metadata document: its optional `action`
entry (`metadata['task']['action']`). -/
structure TaskElement where
  action : Option (List Char)
deriving DecidableEq

/-- The parsed metadata document as far as `_determine_task_action` reads it:
the optional `task` element. -/
structure TaskMetadata where
  task : Option TaskElement
deriving DecidableEq

/-- `EESSITask._determine_task_action` (`eessi_task.py`, lines 97-112):
when `'task' in metadata and 'action' in metadata['task']`, lower-case the
action string and map `nop|delete|add|update` to the enum; every other case
falls through to `EESSITaskAction.UNKNOWN`. -/
def determine_task_action (metadata : TaskMetadata) : EESSITaskAction :=
  match metadata.task with
  | some t =>
    match t.action with
    | some a =>
      let s := a.map Char.toLower
      if s = chars "nop" then EESSITaskAction.NOP
      else if s = chars "delete" then EESSITaskAction.DELETE
      else if s = chars "add" then EESSITaskAction.ADD
      else if s = chars "update" then EESSITaskAction.UPDATE
      else EESSITaskAction.UNKNOWN
    | none => EESSITaskAction.UNKNOWN
  | none => EESSITaskAction.UNKNOWN

/-! ## Ingestion handlers

`EessiTarball.ingest` (`eessitarball.py`, lines 253-307) and
`EESSITask._perform_task_add` (`eessi_task.py`, lines 1202-1267) are the two
handlers that run the external ingestion script for an approved artifact. -/

/-- `EESSITask.valid_transitions` (`eessi_task.py`, lines 79-89). -/
def valid_transitions : TaskState → List TaskState
  | .UNDETERMINED => [.NEW_TASK, .PAYLOAD_STAGED, .PULL_REQUEST, .APPROVED, .REJECTED,
                      .INGESTED, .DONE]
  | .NEW_TASK => [.PAYLOAD_STAGED]
  | .PAYLOAD_STAGED => [.PULL_REQUEST]
  | .PULL_REQUEST => [.APPROVED, .REJECTED]
  | .APPROVED => [.INGESTED]
  | .REJECTED => []
  | .INGESTED => []
  | .DONE => []

/-- `EESSITask._next_state` for an explicitly given state:
`self.valid_transitions[the_state][0]` (`none` models the `IndexError` a
terminal state would raise). -/
def next_state (state : TaskState) : Option TaskState := (valid_transitions state).head?

/-- Inputs of `EESSITask._perform_task_add` that the claims are about: the
payload's recorded signature-verification outcome
(`EESSITaskPayload.signature_verified`, set when the payload was staged), the
SHA-256 digest of the downloaded payload and the digest recorded in the
metadata document (`metadata['payload']['sha256sum']`), the exit code of the
ingestion script, and whether an open issue with the failure title already
exists. -/
structure AddContext where
  signature_verified : Bool
  payload_sha256 : List Char
  metadata_sha256 : List Char
  ingest_returncode : Nat
  open_issue_exists : Bool

/-- Observable outcome of one run of an APPROVED-state ingestion handler. -/
structure IngestOutcome where
  script_invoked : Bool
  state_after : Option TaskState
  issue_created : Bool
  returned_success : Bool
deriving DecidableEq, Repr

/-- `EESSITask._perform_task_add` (`eessi_task.py`, lines 1202-1267): it runs
the ingestion script unconditionally — neither `signature_verified` nor any
checksum comparison guards the `subprocess.run` call (the source carries
`TODO: verify checksum here or before?`).  On exit code 0 the task-state file
is updated to `_next_state(TaskState.APPROVED)`; on a non-zero exit a
tracking issue is created unless an open one with the same title exists. -/
def perform_task_add (ctx : AddContext) : IngestOutcome :=
  if ctx.ingest_returncode = 0 then
    { script_invoked := true
      state_after := next_state TaskState.APPROVED
      issue_created := false
      returned_success := true }
  else
    { script_invoked := true
      state_after := none
      issue_created := !ctx.open_issue_exists
      returned_success := false }

/-- Inputs of `EessiTarball.ingest`: outcomes of `verify_signatures` and
`verify_checksum`, the ingestion script's exit code, and whether an open
issue with the failure title already exists. -/
structure TarballIngestContext where
  signatures_ok : Bool
  checksum_ok : Bool
  ingest_returncode : Nat
  open_issue_exists : Bool

/-- `EessiTarball.ingest` (`eessitarball.py`, lines 253-307): verify
signatures (failure opens an issue and returns), then verify the checksum
(failure opens an issue and returns), and only then run the ingestion
script; exit code 0 moves the metadata file from `approved/` to `ingested/`
(`next_state('approved') = 'ingested'`), a non-zero exit opens an issue
unless an open one exists. -/
def tarball_ingest (ctx : TarballIngestContext) : IngestOutcome :=
  if !ctx.signatures_ok then
    { script_invoked := false, state_after := none
      issue_created := !ctx.open_issue_exists, returned_success := false }
  else if !ctx.checksum_ok then
    { script_invoked := false, state_after := none
      issue_created := !ctx.open_issue_exists, returned_success := false }
  else if ctx.ingest_returncode = 0 then
    { script_invoked := true, state_after := some TaskState.INGESTED
      issue_created := false, returned_success := true }
  else
    { script_invoked := true, state_after := none
      issue_created := !ctx.open_issue_exists, returned_success := false }

/-! ## Exit codes (`automated_ingestion.py`)

`def error(msg, code=1)` logs and calls `sys.exit(code)`.  Every caller of
`error` in the script uses the default code, including the
`except PidFileError` handler of the `__main__` block (lines 357-361). -/

/-- The default `code` parameter of `error` (`automated_ingestion.py`,
line 37): `def error(msg, code=1)`. -/
def error_default_code : Nat := 1

/-- Exit code of a normal run of `automated_ingestion.py`. -/
def success_exit_code : Nat := 0

/-- The failure events of `automated_ingestion.py` that abort the process
through `error(...)`. -/
inductive RunFailure where
  | pidfile_busy            -- `except PidFileError: error('Another instance ...')`
  | config_unreadable       -- `parse_config`: unreadable configuration file
  | missing_config_item     -- `parse_config`: missing required section or item
  | invalid_staging_pr_method  -- `parse_config`: invalid `staging_pr_method`
deriving DecidableEq, Repr

/-- Exit code produced for each failure event: every call site of `error`
passes no `code` argument, so each exits with `error_default_code`. -/
def exit_code_for : RunFailure → Nat
  | .pidfile_busy => error_default_code
  | .config_unreadable => error_default_code
  | .missing_config_item => error_default_code
  | .invalid_staging_pr_method => error_default_code

/-! ## Bucket listing (`automated_ingestion.py`)

The object-storage provider answers `list_objects_v2` one page at a time; a
bucket's listing is modelled as the list of its pages (each page a list of
keys).  A response's `IsTruncated` field is true exactly when further pages
remain, in which case `NextContinuationToken` leads to the next page. -/

/-- The pagination loop of `find_deployment_tasks` (`automated_ingestion.py`,
lines 322-341): call `list_objects_v2`, extend `files` with the page's
`Contents`, and repeat while the response `IsTruncated`. -/
def page_loop : List (List (List Char)) → List (List Char)
  | [] => []
  | page :: rest => page ++ page_loop rest

/-- `find_tarballs` (`automated_ingestion.py`, lines 43-57): a single
`list_objects_v2` call (its `TODO` notes it returns at most 1000 objects),
so only the first page's `Contents` become `files`; the result keeps every
file ending in `extension` whose `file + metadata_extension` is also in
`files`. -/
def find_tarballs (pages : List (List (List Char)))
    (extension metadata_extension : List Char) : List (List Char) :=
  let files := pages.headD []
  files.filter fun file =>
    extension.isSuffixOf file && files.contains (file ++ metadata_extension)

/-- `find_deployment_tasks` (`automated_ingestion.py`, lines 304-354): gather
`files` from all pages via the continuation-token loop, then keep every file
ending in one of `extensions` whose name without that extension
(`file[:-len(ext)]`) is also present. -/
def find_deployment_tasks (pages : List (List (List Char)))
    (extensions : List (List Char)) : List (List Char) :=
  let files := page_loop pages
  files.filter fun file =>
    extensions.any fun ext =>
      ext.isSuffixOf file && files.contains (file.take (file.length - ext.length))

/-! ## Git-backed state store (`eessitarball.py`, `EessiTarball.move_metadata_file`)

One branch of the staging git repository is modelled as a finite map from
file paths to file contents.  `github.Repository.get_contents` raises
`UnknownObjectException` (404) for a missing path; `move_metadata_file` calls
it outside any `try` block, so that exception propagates to the caller. -/

/-- A branch of the staging repository: association list path → contents. -/
abbrev RepoFiles := List (List Char × List Char)

/-- The PyGithub exceptions relevant here. -/
inductive GithubError where
  | notFound  -- `UnknownObjectException` / status 404
deriving DecidableEq, Repr

/-- `git_repo.get_contents(path)`: the file's contents, or an
`UnknownObjectException` when the path does not exist. -/
def get_contents (repo : RepoFiles) (path : List Char) : Except GithubError (List Char) :=
  match repo.lookup path with
  | some contents => .ok contents
  | none => .error .notFound

/-- `git_repo.delete_file(path, ...)`: remove the file at `path`. -/
def delete_file (repo : RepoFiles) (path : List Char) : RepoFiles :=
  repo.filter fun entry => entry.1 != path

/-- `git_repo.create_file(path, ..., contents, ...)`: add a file at `path`. -/
def create_file (repo : RepoFiles) (path contents : List Char) : RepoFiles :=
  repo ++ [(path, contents)]

/-- `EessiTarball.move_metadata_file` (`eessitarball.py`, lines 509-519):
read the metadata file from `old_state + '/' + metadata_file` (the
`get_contents` call raises `UnknownObjectException` when the source is
absent, and nothing catches it), then delete it there and re-create it at
`new_state + '/' + metadata_file`. -/
def move_metadata_file (repo : RepoFiles) (old_state new_state metadata_file : List Char) :
    Except GithubError RepoFiles :=
  let file_path_old := old_state ++ '/' :: metadata_file
  let file_path_new := new_state ++ '/' :: metadata_file
  match get_contents repo file_path_old with
  | .error e => .error e
  | .ok tarball_metadata =>
    .ok (create_file (delete_file repo file_path_old) file_path_new tarball_metadata)

/-! ## Local data/signature mirror (`eessi_data_object.py`,
`EESSIDataAndSignatureObject.download`)

The local state per remote file pair: the data file, the signature file, and
the two `.etag` sidecars.  A sidecar is modelled by the `Option` of its
(whitespace-stripped) contents, as returned by `_get_local_etag` — `none`
when the sidecar is missing or unreadable.  The remote side is the pair of
ETags that `remote_client.get_metadata(...)['ETag']` would return, `none`
modelling a raised exception.  The remote-storage client itself is not part
of this repository's sources; modelled from the spec: every successful
download writes the file and pairs it with a `.etag` sidecar holding the
remote ETag. -/

/-- `DownloadMode` of the remote-storage client. -/
inductive DownloadMode where
  | FORCE
  | CHECK_REMOTE
  | CHECK_LOCAL
deriving DecidableEq, Repr

/-- Local mirror state for one data/signature pair. -/
structure LocalFiles where
  data_file : Bool                 -- `local_file_path.exists()`
  sig_file : Bool                  -- `local_sig_path.exists()`
  data_etag : Option (List Char)   -- `_get_local_etag(local_file_path)`
  sig_etag : Option (List Char)    -- `_get_local_etag(local_sig_path)`
deriving DecidableEq, Repr

/-- Remote ETags as observed by `get_metadata`; `none` = the call raises. -/
structure RemoteEtags where
  data_etag : Option (List Char)
  sig_etag : Option (List Char)
deriving DecidableEq, Repr

/-- Python truthiness of an `Optional[str]`: `None` and `''` are falsy. -/
def pyTruthy : Option (List Char) → Bool
  | none => false
  | some s => !s.isEmpty

/-- The `should_download` decision of `EESSIDataAndSignatureObject.download`
(`eessi_data_object.py`, lines 174-258).  `FORCE` always downloads.
`CHECK_REMOTE` first checks that both local files exist (missing locals skip
all ETag work), then that both local ETags are truthy, and only then fetches
both remote ETags and compares; an exception while handling ETags (modelled
by a `none` remote ETag) also leads to downloading.  `CHECK_LOCAL` downloads
iff either local file is missing. -/
def should_download (mode : DownloadMode) (l : LocalFiles) (r : RemoteEtags) : Bool :=
  match mode with
  | .FORCE => true
  | .CHECK_REMOTE =>
    if !(l.data_file && l.sig_file) then true
    else if !(pyTruthy l.data_etag) || !(pyTruthy l.sig_etag) then true
    else
      match r.data_etag, r.sig_etag with
      | some remote_file_etag, some remote_sig_etag =>
        (some remote_file_etag != l.data_etag) || (some remote_sig_etag != l.sig_etag)
      | _, _ => true
  | .CHECK_LOCAL => !(l.data_file && l.sig_file)

/-- Remote path labels recorded in the order the transfers are attempted. -/
def dataLabel : List Char := chars "data"

/-- Label for the signature transfer. -/
def sigLabel : List Char := chars "sig"

/-- Body of the outer `try` of `download` (`eessi_data_object.py`, lines
264-319): download the main file first (on success the client also writes
its `.etag` sidecar); then try the signature.  A failed signature download
with `signatures_required` removes the data file and both sidecars and
re-raises; with signatures optional it removes only the signature file and
its sidecar and the download still returns `True`.  The result is the
return value (or the propagated exception), the final local state, and the
transfers attempted in order. -/
def download_transfers_body (signatures_required data_ok sig_ok : Bool)
    (r : RemoteEtags) (l : LocalFiles) :
    Except Unit Bool × LocalFiles × List (List Char) :=
  if !data_ok then
    (.error (), l, [dataLabel])
  else
    let l1 : LocalFiles := { l with data_file := true, data_etag := r.data_etag }
    if sig_ok then
      (.ok true, { l1 with sig_file := true, sig_etag := r.sig_etag },
       [dataLabel, sigLabel])
    else if signatures_required then
      (.error (), { l1 with data_file := false, data_etag := none, sig_etag := none },
       [dataLabel, sigLabel])
    else
      (.ok true, { l1 with sig_file := false, sig_etag := none },
       [dataLabel, sigLabel])

/-- The outer `except` handler of `download` (`eessi_data_object.py`, lines
320-335): any exception escaping the body — a failed data download, or the
re-raised signature error of the `signatures_required` branch — removes the
data file, the signature file and both `.etag` sidecars, then re-raises. -/
def download_transfers (signatures_required data_ok sig_ok : Bool)
    (r : RemoteEtags) (l : LocalFiles) :
    Except Unit Bool × LocalFiles × List (List Char) :=
  match download_transfers_body signatures_required data_ok sig_ok r l with
  | (.error e, _, attempts) =>
    (.error e, { data_file := false, sig_file := false, data_etag := none, sig_etag := none },
     attempts)
  | ok => ok

/-- `EESSIDataAndSignatureObject.download` (`eessi_data_object.py`, lines
163-335): decide via `should_download`, return `False` (no transfer) when
nothing is to be done, otherwise run the transfers. -/
def download (mode : DownloadMode) (l : LocalFiles) (r : RemoteEtags)
    (signatures_required data_ok sig_ok : Bool) :
    Except Unit Bool × LocalFiles × List (List Char) :=
  if should_download mode l r then
    download_transfers signatures_required data_ok sig_ok r l
  else
    (.ok false, l, [])

/-! ## Checksum verification (`utils.py` `sha256sum` and
`EessiTarball.verify_checksum`)

File contents are byte lists.  The SHA-256 compression itself lives in
`hashlib` outside this repository and is abstracted as a function `core`
from the accumulated byte stream to the digest bytes; `hashlib`'s `update`
appends a block to the hashed stream, and `hexdigest()` renders the digest
bytes as lowercase hexadecimal. -/

/-- The lowercase hexadecimal digits used by `hexdigest()`. -/
def hexDigitChars : List Char := chars "0123456789abcdef"

/-- Lowercase two-digit hexadecimal rendering of one byte. -/
def byteToHex (b : Nat) : List Char :=
  [hexDigitChars.getD (b / 16 % 16) '0', hexDigitChars.getD (b % 16) '0']

/-- `hexdigest()`: the digest bytes in lowercase hexadecimal. -/
def hexdigest (digest : List Nat) : List Char := (digest.map byteToHex).flatten

/-- `sha256_hash.update(byte_block)`: append the block to the hashed stream. -/
def hash_update (stream block : List Nat) : List Nat := stream ++ block

/-- `iter(lambda: f.read(8192), b'')` of `sha256sum` (`utils.py`, lines
111-118): the file's contents as consecutive blocks of 8192 bytes (the last
one possibly shorter). -/
def read_blocks (content : List Nat) : List (List Nat) :=
  if _h : content = [] then []
  else content.take 8192 :: read_blocks (content.drop 8192)
termination_by content.length
decreasing_by
  simp only [List.length_drop]
  have := List.length_pos.mpr _h
  omega

/-- `sha256sum(path)` (`utils.py`, lines 111-118): feed the file to the hash
in 8 KiB blocks and return the lowercase hex digest.  `core` abstracts the
SHA-256 compression performed by `hashlib`. -/
def sha256sum (core : List Nat → List Nat) (content : List Nat) : List Char :=
  hexdigest (core ((read_blocks content).foldl hash_update []))

/-- `EessiTarball.verify_checksum` (`eessitarball.py`, lines 243-251):
`sha256sum(self.local_path) == json.load(meta)['payload']['sha256sum']` —
plain string equality of the computed lowercase digest with the digest
recorded in the metadata file. -/
def verify_checksum (core : List Nat → List Nat) (content : List Nat)
    (meta_sha256 : List Char) : Bool :=
  sha256sum core content == meta_sha256

/-- Case-insensitive equality of two strings (what the claim asserts the
comparison to be): equality after lower-casing both sides. -/
def eqCaseInsensitive (a b : List Char) : Bool :=
  a.map Char.toLower == b.map Char.toLower

/-! ## Metadata filename decomposition
(`eessi_task_description.py`, `EESSITaskDescription.get_metadata_filename_components`)

Python string operations used by the source, on `List Char`:
`split(sep)` keeping empty parts, `split(sep, 1)[1]`, and `strip(chars)`
which removes characters *of the set `chars`* from both ends. -/

/-- Python `s.split(sep)` for a one-character separator: all parts, empty
parts kept, never an empty list. -/
def splitChar (sep : Char) : List Char → List (List Char)
  | [] => [[]]
  | c :: cs =>
    if c = sep then [] :: splitChar sep cs
    else
      match splitChar sep cs with
      | [] => [[c]]
      | part :: parts => (c :: part) :: parts

/-- Python `s.split(sep, 1)[1]` for a one-character separator: everything
after the first occurrence of `sep`, or `none` (an `IndexError`) when `sep`
does not occur. -/
def splitFirstRest (sep : Char) : List Char → Option (List Char)
  | [] => none
  | c :: cs => if c = sep then some cs else splitFirstRest sep cs

/-- Membership of a character in the character set of a Python string. -/
def charInSet (c : Char) : List Char → Bool
  | [] => false
  | d :: ds => if c = d then true else charInSet c ds

/-- Python `sep.join(parts)` for a one-character separator. -/
def pyJoin (sep : Char) : List (List Char) → List Char
  | [] => []
  | [x] => x
  | x :: xs => x ++ sep :: pyJoin sep xs

/-- Python `s.strip(strip_chars)`: remove characters belonging to the set
`strip_chars` from both ends of `s`. -/
def pyStrip (strip_chars s : List Char) : List Char :=
  ((s.dropWhile (charInSet · strip_chars)).reverse.dropWhile (charInSet · strip_chars)).reverse

/-- The six components of a metadata filename, in the order the source's
tuple returns them. -/
structure FilenameComponents where
  version : List Char
  component : List Char
  osPart : List Char
  architecture : List Char
  timestamp : List Char
  suffix : List Char
deriving DecidableEq, Repr

/-- `EESSITaskDescription.get_metadata_filename_components`
(`eessi_task_description.py`, lines 73-107): take the suffix as everything
after the first dot of the last hyphen-separated segment
(`file_name.split("-")[-1].split(".", 1)[1]`), remove it from the filename
with `file_name.strip(f".{suffix}")` — note `strip` removes a character
*set* from both ends — split the rest on hyphens and read off VERSION,
COMPONENT, OS, ARCHITECTURE (elements 4..second-to-last re-joined with
hyphens) and TIMESTAMP.  `none` models the `IndexError`s Python would raise
on a name without a dot in its last segment or with fewer than four
hyphen-separated parts. -/
def get_metadata_filename_components (file_name : List Char) :
    Option FilenameComponents :=
  match splitFirstRest '.' ((splitChar '-' file_name).getLastD []) with
  | none => none
  | some suffix =>
    let file_name_without_suffix := pyStrip ('.' :: suffix) file_name
    let components := splitChar '-' file_name_without_suffix
    match components[1]?, components[2]?, components[3]? with
    | some version, some component, some osPart =>
      let architecture := pyJoin '-' ((components.drop 4).dropLast)
      let timestamp := components.getLastD []
      some ⟨version, component, osPart, architecture, timestamp, suffix⟩
    | _, _, _ => none

/-- The metadata filename convention of the specification:
`eessi-<VERSION>-<COMPONENT>-<OS>-<ARCH>-<TIMESTAMP>.<SUFFIX>`. -/
def format_metadata_filename (version component osPart architecture timestamp suffix :
    List Char) : List Char :=
  chars "eessi-" ++ version ++ '-' :: component ++ '-' :: osPart ++ '-' :: architecture
    ++ '-' :: timestamp ++ '.' :: suffix

/-! ## Theorems -/

/-- The state-moving handler of `eessitarball.py` only reaches the ingestion
script after both verification steps succeed, and only moves the metadata
file into `ingested/` when the script also exits 0. -/
theorem tarball_ingest_gated (ctx : TarballIngestContext) :
    ((tarball_ingest ctx).script_invoked = true →
      ctx.signatures_ok = true ∧ ctx.checksum_ok = true) ∧
    ((tarball_ingest ctx).state_after = some TaskState.INGESTED →
      ctx.signatures_ok = true ∧ ctx.checksum_ok = true ∧ ctx.ingest_returncode = 0) := by
  obtain ⟨sig, chk, rc, issue⟩ := ctx
  by_cases h : rc = 0 <;> cases sig <;> cases chk <;> simp [tarball_ingest, h]

/-- Claim C1: the task-based APPROVED handler `_perform_task_add` runs the
ingestion script and, on exit 0, advances the task to INGESTED without
consulting the payload's recorded signature-verification outcome and without
any checksum comparison (the source carries
`TODO: verify checksum here or before?`).  Evaluated at a context whose
signature verification failed and whose payload digest differs from the
metadata digest, the script is nevertheless invoked and the state file is
set to INGESTED. -/
theorem perform_task_add_ingests_unverified :
    (perform_task_add ⟨false, chars "aa", chars "bb", 0, false⟩).script_invoked = true
    ∧ (perform_task_add ⟨false, chars "aa", chars "bb", 0, false⟩).state_after
        = some TaskState.INGESTED
    ∧ chars "aa" ≠ chars "bb" := by decide

/-- Claim C2 (counterexample): a metadata document with no `task` element
yields `EESSITaskAction.UNKNOWN`, not `EESSITaskAction.ADD`. -/
theorem determine_task_action_no_task_not_add :
    determine_task_action ⟨none⟩ ≠ EESSITaskAction.ADD := by decide

/-- Claim C2 (amended): when the parsed metadata document has no
`task.action` field (or no `task` element at all), `_determine_task_action`
returns `EESSITaskAction.UNKNOWN` (for which no handler is implemented), not
`ADD`. -/
theorem determine_task_action_absent_is_unknown (metadata : TaskMetadata)
    (h : metadata.task = none ∨ ∃ t, metadata.task = some t ∧ t.action = none) :
    determine_task_action metadata = EESSITaskAction.UNKNOWN := by
  rcases h with h | ⟨t, ht, ha⟩
  · simp [determine_task_action, h]
  · simp [determine_task_action, ht, ha]

/-- Concrete instance of `determine_task_action_absent_is_unknown`. -/
theorem determine_task_action_absent_is_unknown_witness :
    ((⟨none⟩ : TaskMetadata).task = none ∨
      ∃ t, (⟨none⟩ : TaskMetadata).task = some t ∧ t.action = none)
    ∧ determine_task_action ⟨none⟩ = EESSITaskAction.UNKNOWN :=
  ⟨Or.inl rfl, determine_task_action_absent_is_unknown ⟨none⟩ (Or.inl rfl)⟩

/-- Claim C5: `find_tarballs` issues a single `list_objects_v2` call, so a
tarball/metadata pair on the second result page is never considered: on a
two-page bucket whose second page holds `b.tar.gz` and its metadata sibling,
`find_tarballs` returns nothing, although the key is in the full listing and
would be selected from it; the task-based `find_deployment_tasks` path does
follow continuation tokens across pages. -/
theorem find_tarballs_misses_later_pages :
    find_tarballs [[chars "a.txt"], [chars "b.tar.gz", chars "b.tar.gz.meta.txt"]]
      (chars ".tar.gz") (chars ".meta.txt") = []
    ∧ chars "b.tar.gz" ∈
        page_loop [[chars "a.txt"], [chars "b.tar.gz", chars "b.tar.gz.meta.txt"]]
    ∧ find_tarballs [page_loop [[chars "a.txt"], [chars "b.tar.gz", chars "b.tar.gz.meta.txt"]]]
        (chars ".tar.gz") (chars ".meta.txt") = [chars "b.tar.gz"]
    ∧ find_deployment_tasks [[chars "x.task"], [chars "x"]] [chars ".task"]
        = [chars "x.task"] := by decide

/-- Claim C7 (counterexample): after a successful move of `m` from `staged/`
to `approved/`, calling `move_metadata_file` again for the same file raises
`UnknownObjectException` (NotFound) from the `get_contents` call on the
source path instead of completing as a success. -/
theorem move_metadata_file_second_call_raises :
    move_metadata_file [(chars "staged/m", chars "x")]
      (chars "staged") (chars "approved") (chars "m")
      = .ok [(chars "approved/m", chars "x")]
    ∧ move_metadata_file [(chars "approved/m", chars "x")]
      (chars "staged") (chars "approved") (chars "m")
      = .error .notFound := ⟨rfl, rfl⟩

/-- Claim C7 (amended): whenever the source path is absent — in particular
on a second call for an already-moved file — `move_metadata_file` propagates
the NotFound error and performs no writes, so the destination file of the
first call stays in place; the error is not treated as success. -/
theorem move_metadata_file_absent_source_raises (repo : RepoFiles)
    (old_state new_state metadata_file : List Char)
    (h : repo.lookup (old_state ++ '/' :: metadata_file) = none) :
    move_metadata_file repo old_state new_state metadata_file = .error .notFound := by
  simp [move_metadata_file, get_contents, h]

/-- Concrete instance of `move_metadata_file_absent_source_raises`. -/
theorem move_metadata_file_absent_source_raises_witness :
    ([(chars "approved/m", chars "x")].lookup (chars "staged" ++ '/' :: chars "m")
      = (none : Option (List Char)))
    ∧ move_metadata_file [(chars "approved/m", chars "x")]
        (chars "staged") (chars "approved") (chars "m") = .error .notFound :=
  ⟨rfl, move_metadata_file_absent_source_raises _ _ _ _ rfl⟩

/-- Claim C9 (counterexample): the `except PidFileError` handler of the
`__main__` block calls `error(...)` without a `code` argument, so a busy
pidfile exits with code 1 — the very code the claim requires it to be
distinguishable from. -/
theorem pidfile_busy_exit_code_is_one :
    exit_code_for RunFailure.pidfile_busy = 1 := rfl

/-- Claim C9 (amended): a busy pidfile aborts the process with a non-zero
exit code, but that code is the default `error` code 1, identical to the
code used for fatal configuration or runtime errors — it is not
distinguishable. -/
theorem pidfile_busy_exit_code_not_distinct :
    exit_code_for RunFailure.pidfile_busy ≠ success_exit_code
    ∧ ∀ f : RunFailure, exit_code_for f = error_default_code := by
  refine ⟨by decide, ?_⟩
  intro f
  cases f <;> rfl

/-- Claim C10: when the task's state file is found both in the default
branch and in the sequence-number branch with different values,
`_get_state_for_metadata_file_prefix` sorts the found states by the enum
order `UNDETERMINED < NEW_TASK < PAYLOAD_STAGED < PULL_REQUEST < APPROVED <
REJECTED < INGESTED < DONE` and returns the last, i.e. the maximum. -/
theorem get_state_for_metadata_files_max (a b : TaskState) (h : a ≠ b) :
    get_state_for_metadata_files (some a) (some b) = TaskState.max a b := by
  revert a b
  decide

/-- Concrete instance of `get_state_for_metadata_files_max`. -/
theorem get_state_for_metadata_files_max_witness :
    TaskState.PULL_REQUEST ≠ TaskState.APPROVED
    ∧ get_state_for_metadata_files (some TaskState.PULL_REQUEST) (some TaskState.APPROVED)
        = TaskState.max TaskState.PULL_REQUEST TaskState.APPROVED :=
  ⟨by decide, get_state_for_metadata_files_max _ _ (by decide)⟩

/-- Claim C4: in the transfer part of `download`, the data file is
transferred first (the attempt order is data, then signature).  When the
signature download fails and `signatures_required` is true, the call raises
and the local data file and both `.etag` sidecars are gone; when
`signatures_required` is false, the call reports success and only the
signature file and its sidecar are removed — the data file and its sidecar
remain as just written. -/
theorem download_signature_failure_contract (r : RemoteEtags) (l : LocalFiles) :
    (download_transfers true true false r l).2.2 = [dataLabel, sigLabel]
    ∧ (download_transfers true true false r l).1 = .error ()
    ∧ (download_transfers true true false r l).2.1.data_file = false
    ∧ (download_transfers true true false r l).2.1.data_etag = none
    ∧ (download_transfers true true false r l).2.1.sig_etag = none
    ∧ (download_transfers false true false r l).2.2 = [dataLabel, sigLabel]
    ∧ (download_transfers false true false r l).1 = .ok true
    ∧ (download_transfers false true false r l).2.1 =
        { l with data_file := true, data_etag := r.data_etag,
                 sig_file := false, sig_etag := none } := by
  simp [download_transfers, download_transfers_body]

/-- Claim C3: with CHECK_REMOTE, assuming the two remote HEAD requests
succeed and that any existing `.etag` sidecar holds a non-empty ETag (the
sidecars are written byte-for-byte from remote ETags, which are non-empty),
a download is performed iff one of the four local artefacts — data file,
signature file, data ETag sidecar, signature ETag sidecar — is missing, or a
remote ETag differs from the corresponding sidecar value.  In particular,
when both files and both sidecars exist and both remote ETags are unchanged,
no download is performed. -/
theorem should_download_check_remote_iff (l : LocalFiles) (r : RemoteEtags)
    (hde : l.data_etag ≠ some []) (hse : l.sig_etag ≠ some [])
    (hrd : r.data_etag.isSome = true) (hrs : r.sig_etag.isSome = true) :
    should_download DownloadMode.CHECK_REMOTE l r = true ↔
      (l.data_file = false ∨ l.sig_file = false
       ∨ l.data_etag = none ∨ l.sig_etag = none
       ∨ r.data_etag ≠ l.data_etag ∨ r.sig_etag ≠ l.sig_etag) := by
  obtain ⟨df, sf, de, se⟩ := l
  obtain ⟨rd, rs⟩ := r
  cases df <;> cases sf <;> cases de <;> cases se <;> cases rd <;> cases rs <;>
    simp_all [should_download, pyTruthy, List.isEmpty_iff]

/-- Concrete instance of `should_download_check_remote_iff`: both files and
both sidecars present and both remote ETags unchanged — no download. -/
theorem should_download_check_remote_iff_witness :
    ((⟨true, true, some (chars "e1"), some (chars "e2")⟩ : LocalFiles).data_etag ≠ some []
     ∧ (⟨true, true, some (chars "e1"), some (chars "e2")⟩ : LocalFiles).sig_etag ≠ some []
     ∧ (⟨some (chars "e1"), some (chars "e2")⟩ : RemoteEtags).data_etag.isSome = true
     ∧ (⟨some (chars "e1"), some (chars "e2")⟩ : RemoteEtags).sig_etag.isSome = true)
    ∧ (should_download DownloadMode.CHECK_REMOTE
        ⟨true, true, some (chars "e1"), some (chars "e2")⟩
        ⟨some (chars "e1"), some (chars "e2")⟩ = true ↔
      ((⟨true, true, some (chars "e1"), some (chars "e2")⟩ : LocalFiles).data_file = false
       ∨ (⟨true, true, some (chars "e1"), some (chars "e2")⟩ : LocalFiles).sig_file = false
       ∨ (⟨true, true, some (chars "e1"), some (chars "e2")⟩ : LocalFiles).data_etag = none
       ∨ (⟨true, true, some (chars "e1"), some (chars "e2")⟩ : LocalFiles).sig_etag = none
       ∨ (⟨some (chars "e1"), some (chars "e2")⟩ : RemoteEtags).data_etag
           ≠ (⟨true, true, some (chars "e1"), some (chars "e2")⟩ : LocalFiles).data_etag
       ∨ (⟨some (chars "e1"), some (chars "e2")⟩ : RemoteEtags).sig_etag
           ≠ (⟨true, true, some (chars "e1"), some (chars "e2")⟩ : LocalFiles).sig_etag)) :=
  ⟨⟨by decide, by decide, by decide, by decide⟩,
   should_download_check_remote_iff _ _ (by decide) (by decide) (by decide) (by decide)⟩

/-- Folding `update` over a block list hashes the concatenation of the
blocks. -/
theorem foldl_hash_update (blocks : List (List Nat)) (acc : List Nat) :
    blocks.foldl hash_update acc = acc ++ blocks.flatten := by
  induction blocks generalizing acc with
  | nil => simp
  | cons b bs ih => simp [hash_update, ih]

/-- Reading a file in 8 KiB blocks yields exactly its contents. -/
theorem read_blocks_flatten (content : List Nat) :
    (read_blocks content).flatten = content := by
  induction content using read_blocks.induct with
  | case1 => simp [read_blocks]
  | case2 c hne ih =>
    rw [read_blocks]
    simp [hne, ih]

/-- Claim C6 (counterexample): an uppercase-hex digest recorded in the
metadata that matches the payload digest up to case is rejected —
`verify_checksum` compares the lowercase `hexdigest()` by plain string
equality.  (`core` instantiated with a hash whose digest byte is 171, i.e.
hex `ab`.) -/
theorem verify_checksum_rejects_uppercase :
    eqCaseInsensitive (sha256sum (fun _ => [171]) [1, 2, 3]) (chars "AB") = true
    ∧ verify_checksum (fun _ => [171]) [1, 2, 3] (chars "AB") = false := by decide

/-- Claim C6 (amended): `verify_checksum` returns true iff the lowercase
SHA-256 hex digest of the file — computed by streaming it in 8 KiB blocks,
which hashes exactly the file's contents — equals the expected digest by
exact, case-sensitive string comparison.  `core` abstracts the SHA-256
compression of `hashlib`. -/
theorem verify_checksum_exact_equality (core : List Nat → List Nat)
    (content : List Nat) (expected : List Char) :
    verify_checksum core content expected = true ↔ hexdigest (core content) = expected := by
  unfold verify_checksum sha256sum
  rw [foldl_hash_update, List.nil_append, read_blocks_flatten]
  exact beq_iff_eq

/-- `charInSet` decides membership. -/
theorem charInSet_iff (c : Char) (l : List Char) : charInSet c l = true ↔ c ∈ l := by
  induction l with
  | nil => simp [charInSet]
  | cons d ds ih => by_cases h : c = d <;> simp [charInSet, h, ih]

/-- A character outside the set is not `charInSet`. -/
theorem charInSet_eq_false_of_not_mem (c : Char) (l : List Char) (h : c ∉ l) :
    charInSet c l = false := by
  rw [Bool.eq_false_iff]
  intro hh
  exact h ((charInSet_iff c l).mp hh)

/-- A character of the set is `charInSet`. -/
theorem charInSet_eq_true_of_mem (c : Char) (l : List Char) (h : c ∈ l) :
    charInSet c l = true := (charInSet_iff c l).mpr h

/-- Splitting a separator-free string yields the single part. -/
theorem splitChar_of_not_mem (sep : Char) (xs : List Char) (h : sep ∉ xs) :
    splitChar sep xs = [xs] := by
  induction xs with
  | nil => rfl
  | cons c cs ih =>
    simp only [List.mem_cons, not_or] at h
    have hc : ¬(c = sep) := fun hh => h.1 hh.symm
    simp [splitChar, hc, ih h.2]

/-- Splitting peels off a separator-free first part. -/
theorem splitChar_append_sep (sep : Char) (xs ys : List Char) (h : sep ∉ xs) :
    splitChar sep (xs ++ sep :: ys) = xs :: splitChar sep ys := by
  induction xs with
  | nil => simp [splitChar]
  | cons c cs ih =>
    simp only [List.mem_cons, not_or] at h
    have hc : ¬(c = sep) := fun hh => h.1 hh.symm
    simp [splitChar, hc, ih h.2]

/-- Splitting a joined block of separator-free parts recovers the parts. -/
theorem splitChar_pyJoin_append (sep : Char) (parts : List (List Char)) (ys : List Char)
    (hne : parts ≠ []) (hp : ∀ q ∈ parts, sep ∉ q) :
    splitChar sep (pyJoin sep parts ++ sep :: ys) = parts ++ splitChar sep ys := by
  induction parts with
  | nil => exact absurd rfl hne
  | cons q qs ih =>
    cases qs with
    | nil =>
      simp only [pyJoin]
      rw [splitChar_append_sep sep q ys (hp q (by simp))]
      simp
    | cons r rs =>
      have h1 : pyJoin sep (q :: r :: rs) = q ++ sep :: pyJoin sep (r :: rs) := rfl
      rw [h1, List.append_assoc, List.cons_append,
        splitChar_append_sep sep q _ (hp q (by simp)),
        ih (by simp) (fun u hu => hp u (List.mem_cons_of_mem _ hu))]
      rfl

/-- `split(sep, 1)[1]` after a separator-free first part. -/
theorem splitFirstRest_append (sep : Char) (xs ys : List Char) (h : sep ∉ xs) :
    splitFirstRest sep (xs ++ sep :: ys) = some ys := by
  induction xs with
  | nil => simp [splitFirstRest]
  | cons c cs ih =>
    simp only [List.mem_cons, not_or] at h
    have hc : ¬(c = sep) := fun hh => h.1 hh.symm
    simp [splitFirstRest, hc, ih h.2]

/-- `dropWhile` jumps over a block whose characters all satisfy `p`. -/
theorem dropWhile_append_of_all (p : Char → Bool) (xs ys : List Char)
    (h : ∀ x ∈ xs, p x = true) :
    (xs ++ ys).dropWhile p = ys.dropWhile p := by
  induction xs with
  | nil => rfl
  | cons c cs ih =>
    rw [List.cons_append, List.dropWhile_cons, h c (List.mem_cons_self c cs)]
    simp only [if_true]
    exact ih (fun x hx => h x (List.mem_cons_of_mem _ hx))

/-- `dropWhile` never crosses a character that falsifies `p`. -/
theorem dropWhile_append_sep (p : Char → Bool) (sep : Char) (xs ys : List Char)
    (h : p sep = false) :
    (xs ++ sep :: ys).dropWhile p = xs.dropWhile p ++ sep :: ys := by
  induction xs with
  | nil => simp [List.dropWhile_cons, h]
  | cons c cs ih =>
    by_cases hc : p c = true
    · simp [List.dropWhile_cons, hc, ih]
    · simp [List.dropWhile_cons, hc]

/-- Characters surviving `dropWhile` come from the original list. -/
theorem mem_of_mem_dropWhile (p : Char → Bool) (x : Char) (l : List Char)
    (h : x ∈ l.dropWhile p) : x ∈ l :=
  (List.dropWhile_sublist p).mem h

/-- A reversed timestamp followed by a hyphen is left whole by `dropWhile`
when the timestamp's last character falsifies `p` (and so does `'-'`). -/
theorem dropWhile_timestamp_reverse (p : Char → Bool) (timestamp rest : List Char)
    (hsep : p '-' = false)
    (hlast : ∀ x, timestamp.getLast? = some x → p x = false) :
    (timestamp.reverse ++ '-' :: rest).dropWhile p = timestamp.reverse ++ '-' :: rest := by
  cases hrev : timestamp.reverse with
  | nil => simp [List.dropWhile_cons, hsep]
  | cons x xs =>
    have hx : timestamp.getLast? = some x := by
      rw [← List.head?_reverse, hrev]
      rfl
    rw [List.cons_append, List.dropWhile_cons, hlast x hx]
    simp

/-- Claim C8 (counterexample): the round trip fails on the valid filename
`eessi-1-c-l-x-y-1t.tar.gz` (VERSION `1`, COMPONENT `c`, OS `l`, ARCH `x-y`
with one hyphen, TIMESTAMP `1t` — no dots, no hyphens — and SUFFIX
`tar.gz`): `file_name.strip(f".{suffix}")` strips the character *set*
`{.,t,a,r,g,z}` from both ends, so the trailing `t` of the timestamp is
eaten and parsing returns TIMESTAMP `1`. -/
theorem get_metadata_filename_components_no_roundtrip :
    get_metadata_filename_components
        (format_metadata_filename (chars "1") (chars "c") (chars "l")
          (chars "x-y") (chars "1t") (chars "tar.gz"))
      ≠ some ⟨chars "1", chars "c", chars "l", chars "x-y", chars "1t", chars "tar.gz"⟩ := by
  decide

/-- Claim C8 (amended): for every valid metadata filename
`eessi-<VERSION>-<COMPONENT>-<OS>-<ARCH>-<TIMESTAMP>.<SUFFIX>` — VERSION,
COMPONENT, OS, TIMESTAMP free of dots and hyphens, ARCH a hyphen-join of two
or three hyphen-free segments, SUFFIX hyphen-free — whose TIMESTAMP
additionally does not end in a character occurring in `"." + SUFFIX` (for
example, any all-digit timestamp with a letters-and-dots suffix), parsing
the formatted filename returns exactly the components it was formed from. -/
theorem get_metadata_filename_components_roundtrip
    (version component osPart timestamp suffix : List Char) (parts : List (List Char))
    (hv1 : '-' ∉ version) (_hv2 : '.' ∉ version)
    (hc1 : '-' ∉ component) (_hc2 : '.' ∉ component)
    (ho1 : '-' ∉ osPart) (_ho2 : '.' ∉ osPart)
    (ht1 : '-' ∉ timestamp) (ht2 : '.' ∉ timestamp)
    (hs1 : '-' ∉ suffix)
    (hplen : parts.length = 2 ∨ parts.length = 3)
    (hp : ∀ q ∈ parts, '-' ∉ q)
    (hlast : ∀ x, timestamp.getLast? = some x → x ∉ ('.' :: suffix)) :
    get_metadata_filename_components
        (format_metadata_filename version component osPart (pyJoin '-' parts)
          timestamp suffix)
      = some ⟨version, component, osPart, pyJoin '-' parts, timestamp, suffix⟩ := by
  have hpne : parts ≠ [] := by
    intro hh
    rw [hh] at hplen
    simp at hplen
  have heessi : ('-' : Char) ∉ chars "eessi" := by decide
  have hts : ('-' : Char) ∉ timestamp ++ '.' :: suffix := by
    simp only [List.mem_append, List.mem_cons, not_or]
    exact ⟨ht1, by decide, hs1⟩
  have hf : format_metadata_filename version component osPart (pyJoin '-' parts)
        timestamp suffix
      = chars "eessi" ++ '-' :: (version ++ '-' :: (component ++ '-' :: (osPart ++
          '-' :: (pyJoin '-' parts ++ '-' :: (timestamp ++ '.' :: suffix))))) := by
    simp [format_metadata_filename, chars]
  have hsplit : splitChar '-'
        (format_metadata_filename version component osPart (pyJoin '-' parts)
          timestamp suffix)
      = chars "eessi" :: version :: component :: osPart ::
          (parts ++ [timestamp ++ '.' :: suffix]) := by
    rw [hf, splitChar_append_sep _ _ _ heessi, splitChar_append_sep _ _ _ hv1,
      splitChar_append_sep _ _ _ hc1, splitChar_append_sep _ _ _ ho1,
      splitChar_pyJoin_append _ _ _ hpne hp, splitChar_of_not_mem _ _ hts]
  have hlastseg : (splitChar '-'
        (format_metadata_filename version component osPart (pyJoin '-' parts)
          timestamp suffix)).getLastD []
      = timestamp ++ '.' :: suffix := by
    rw [hsplit]
    have hshape : chars "eessi" :: version :: component :: osPart ::
          (parts ++ [timestamp ++ '.' :: suffix])
        = (chars "eessi" :: version :: component :: osPart :: parts)
            ++ [timestamp ++ '.' :: suffix] := by
      simp
    rw [hshape, List.getLastD_concat]
  have hsfr : splitFirstRest '.' (timestamp ++ '.' :: suffix) = some suffix :=
    splitFirstRest_append _ _ _ ht2
  have hpsep : charInSet '-' ('.' :: suffix) = false := by
    refine charInSet_eq_false_of_not_mem _ _ ?_
    simp only [List.mem_cons, not_or]
    exact ⟨by decide, hs1⟩
  have hpdot : charInSet '.' ('.' :: suffix) = true :=
    charInSet_eq_true_of_mem _ _ (List.mem_cons_self _ _)
  have hE' : ('-' : Char) ∉ (chars "eessi").dropWhile (charInSet · ('.' :: suffix)) :=
    fun hm => heessi (mem_of_mem_dropWhile _ _ _ hm)
  have hstrip : pyStrip ('.' :: suffix)
        (format_metadata_filename version component osPart (pyJoin '-' parts)
          timestamp suffix)
      = (chars "eessi").dropWhile (charInSet · ('.' :: suffix)) ++
          '-' :: (version ++ '-' :: (component ++ '-' :: (osPart ++
            '-' :: (pyJoin '-' parts ++ '-' :: timestamp)))) := by
    unfold pyStrip
    rw [hf, dropWhile_append_sep _ _ _ _ hpsep]
    have hrev1 : ((chars "eessi").dropWhile (charInSet · ('.' :: suffix)) ++
          '-' :: (version ++ '-' :: (component ++ '-' :: (osPart ++
            '-' :: (pyJoin '-' parts ++ '-' :: (timestamp ++ '.' :: suffix)))))).reverse
        = suffix.reverse ++ '.' :: (timestamp.reverse ++
            '-' :: ((pyJoin '-' parts).reverse ++ '-' :: (osPart.reverse ++
              '-' :: (component.reverse ++ '-' :: (version.reverse ++
                '-' :: ((chars "eessi").dropWhile (charInSet · ('.' :: suffix))).reverse))))) := by
      simp [List.append_assoc]
    rw [hrev1, dropWhile_append_of_all _ _ _
        (fun x hx => charInSet_eq_true_of_mem _ _
          (List.mem_cons_of_mem _ (List.mem_reverse.mp hx))),
      List.dropWhile_cons, hpdot]
    simp only [if_true]
    rw [dropWhile_timestamp_reverse _ _ _ hpsep
        (fun x hx => charInSet_eq_false_of_not_mem _ _ (hlast x hx))]
    simp [List.append_assoc]
  have hcomps : splitChar '-'
        ((chars "eessi").dropWhile (charInSet · ('.' :: suffix)) ++
          '-' :: (version ++ '-' :: (component ++ '-' :: (osPart ++
            '-' :: (pyJoin '-' parts ++ '-' :: timestamp)))))
      = (chars "eessi").dropWhile (charInSet · ('.' :: suffix)) :: version ::
          component :: osPart :: (parts ++ [timestamp]) := by
    rw [splitChar_append_sep _ _ _ hE', splitChar_append_sep _ _ _ hv1,
      splitChar_append_sep _ _ _ hc1, splitChar_append_sep _ _ _ ho1,
      splitChar_pyJoin_append _ _ _ hpne hp, splitChar_of_not_mem _ _ ht1]
  unfold get_metadata_filename_components
  rw [hlastseg, hsfr]
  simp only []
  rw [hstrip, hcomps]
  have hlast2 : (osPart :: (parts ++ [timestamp])).getLast? = some timestamp := by
    rw [show osPart :: (parts ++ [timestamp]) = (osPart :: parts) ++ [timestamp] from by simp,
      List.getLast?_concat]
  simp [hlast2, List.dropLast_concat]

/-- Concrete instance of `get_metadata_filename_components_roundtrip`, at the
source's own example filename
`eessi-2023-software-linux-x86_64-amd-zen2-1745557626.tar.gz.meta.txt`. -/
theorem get_metadata_filename_components_roundtrip_witness :
    (('-' ∉ chars "2023") ∧ ('.' ∉ chars "2023") ∧ ('-' ∉ chars "software")
     ∧ ('.' ∉ chars "software") ∧ ('-' ∉ chars "linux") ∧ ('.' ∉ chars "linux")
     ∧ ('-' ∉ chars "1745557626") ∧ ('.' ∉ chars "1745557626")
     ∧ ('-' ∉ chars "tar.gz.meta.txt")
     ∧ ([chars "x86_64", chars "amd", chars "zen2"].length = 2
         ∨ [chars "x86_64", chars "amd", chars "zen2"].length = 3)
     ∧ (∀ q ∈ [chars "x86_64", chars "amd", chars "zen2"], '-' ∉ q)
     ∧ (∀ x, (chars "1745557626").getLast? = some x →
          x ∉ ('.' :: chars "tar.gz.meta.txt")))
    ∧ get_metadata_filename_components
        (format_metadata_filename (chars "2023") (chars "software") (chars "linux")
          (pyJoin '-' [chars "x86_64", chars "amd", chars "zen2"])
          (chars "1745557626") (chars "tar.gz.meta.txt"))
      = some ⟨chars "2023", chars "software", chars "linux",
              pyJoin '-' [chars "x86_64", chars "amd", chars "zen2"],
              chars "1745557626", chars "tar.gz.meta.txt"⟩ := by
  have hl : ∀ x, (chars "1745557626").getLast? = some x →
      x ∉ ('.' :: chars "tar.gz.meta.txt") := by
    intro x hx
    rw [show (chars "1745557626").getLast? = some '6' from rfl] at hx
    cases hx
    decide
  refine ⟨⟨by decide, by decide, by decide, by decide, by decide, by decide, by decide,
    by decide, by decide, by decide, by decide, hl⟩, ?_⟩
  exact get_metadata_filename_components_roundtrip _ _ _ _ _ _
    (by decide) (by decide) (by decide) (by decide) (by decide) (by decide)
    (by decide) (by decide) (by decide) (by decide) (by decide) hl

end EESSI

